import Mathlib

/-!
Shallow embedding of the incremental Hacker-News story list
(`src/hint_hackernews.rs`, `src/hnreader.rs`).

Remote fetches are modelled as oracles:
  * the identifier-list fetch result is passed to the constructor as an
    `Except String (List Nat)` value;
  * the per-item detail fetch is an oracle `Nat → Except String Story`.
Rust's `Result<T, E>` becomes `Except String T`; a Rust panic
(`todo!`, `.unwrap()` on an `Err`) is modelled as `none` of an `Option`.
Methods that mutate `&mut self` take a state and return the updated state.
-/

/-- `HnStoryType` from `hint_hackernews.rs`. -/
inductive HnStoryType where
  | story
  | ask
  | comment
  | job
  | poll
deriving DecidableEq

/-- `HnStory` from `hint_hackernews.rs`: a materialized item.  `id` is its
position in the identifier list. -/
structure HnStory where
  id : Nat
  author : String
  title : String
  url : Option String
  hntype : HnStoryType
deriving DecidableEq

/-- `hnreader::Story`: the decoded JSON body of an item-details fetch.  The
Rust field `by` is `by_` here (`by` is a Lean keyword). -/
structure Story where
  id : Nat
  by_ : Option String := none
  title : Option String := none
  url : Option String := none
  score : Option Nat := none
  time : Option Nat := none
  descendants : Option Nat := none
deriving DecidableEq

/-- `HnStoryType::to_string`. -/
def HnStoryType.toString : HnStoryType → String
  | .story => "story"
  | .ask => "ask"
  | .comment => "comment"
  | .job => "job"
  | .poll => "poll"

/-- `HnStoryType::from_string`.  The Rust catch-all arm is `todo!()`, a
panic, modelled as `none`. -/
def HnStoryType.fromString (typev : String) : Option HnStoryType :=
  if typev = "story" then some .story
  else if typev = "ask" then some .ask
  else if typev = "comment" then some .comment
  else if typev = "job" then some .job
  else if typev = "poll" then some .poll
  else none

/-- `HnStoryList` from `hint_hackernews.rs`: identifier list, materialized
stories, write cursor and limit. -/
structure HnStoryList where
  storyidlist : List Nat
  storylist : List HnStory
  story_writer : Nat
  story_maxlen : Nat
deriving DecidableEq

/-- One iteration of the eager-materialization loop in `HnStoryList::new`:
from index `i` and identifier `sid`, build the pushed `HnStory`.  The
defaults `"abc"`/`"hcker"` survive a failed detail fetch (the Rust `Err`
arm only prints); a successful fetch replaces them with the fetched title
and url under the `"Untitled"`/`"http://example.com"` fallbacks. -/
def mkStoryDet (fetch : Nat → Except String Story) (i : Nat) (sid : Nat) : HnStory :=
  let pair : String × String :=
    match fetch sid with
    | .ok story => (story.title.getD "Untitled", story.url.getD "http://example.com")
    | .error _ => ("abc", "hcker")
  { id := i, author := "Unknown", title := pair.1, url := some pair.2,
    hntype := .story }

/-- The `for (i, sid) in story_ids.iter().enumerate()` loop body of
`HnStoryList::new`, already past the `if i > 10 break` truncation (the
caller passes `story_ids.take 11`): pushes one `HnStory` per identifier,
numbering from `i`. -/
def buildDets (fetch : Nat → Except String Story) : Nat → List Nat → List HnStory
  | _, [] => []
  | i, sid :: rest => mkStoryDet fetch i sid :: buildDets fetch (i + 1) rest

/-- `HnStoryList::new`.  `top` is the result of `fetch_top_stories`;
`fetch` the detail-fetch oracle.  On success the first eleven identifiers
(`i > 10` breaks the loop) are eagerly materialized, `story_writer` counts
the pushes, and `story_maxlen` is the FULL identifier-list length.  On
failure every field is empty/zero. -/
def HnStoryList.new (top : Except String (List Nat))
    (fetch : Nat → Except String Story) : HnStoryList :=
  match top with
  | .ok story_ids =>
      { storyidlist := story_ids
        storylist := buildDets fetch 0 (story_ids.take 11)
        story_writer := (story_ids.take 11).length
        story_maxlen := story_ids.length }
  | .error _ =>
      { storyidlist := [], storylist := [], story_writer := 0, story_maxlen := 0 }

/-- `HnStoryList::is_filled`. -/
def HnStoryList.is_filled (l : HnStoryList) : Bool :=
  l.story_writer == l.story_maxlen

/-- `HnStoryList::add_story_at_index`: rejects `index > len`, otherwise
inserts at `index`. -/
def HnStoryList.add_story_at_index (l : HnStoryList) (index : Nat) (story : HnStory) :
    Except String HnStoryList :=
  if index > l.storylist.length then
    .error "Index out of bounds"
  else
    .ok { l with storylist := l.storylist.insertIdx index story }

/-- `HnStoryList::update_story_details`.  Returns the Rust `Result`
together with the post-call state (`&mut self`).  Every error path leaves
the state unchanged.  The in-bounds index `storyidlist[story_writer]` is
modelled with `getD` (on every state the claims reach, the guard plus the
invariant `story_maxlen ≤ len storyidlist` keep it in range). -/
def HnStoryList.update_story_details (l : HnStoryList)
    (fetch : Nat → Except String Story) : Except String HnStory × HnStoryList :=
  if l.story_writer ≥ l.story_maxlen then
    (.error "No more stories to process", l)
  else
    let hnstoryid := l.storyidlist.getD l.story_writer 0
    match fetch hnstoryid with
    | .error err => (.error ("Failed to fetch story details: " ++ err), l)
    | .ok story =>
        let title := story.title.getD "Untitled"
        let url := story.url.getD "http://example.com"
        let hnstory : HnStory :=
          { id := l.story_writer, author := "Unknown", title := title,
            url := some url, hntype := .story }
        match l.add_story_at_index l.story_writer hnstory with
        | .error e =>
            (.error ("Failed to add story at index " ++
              Nat.repr l.story_writer ++ ": " ++ e), l)
        | .ok l2 => (.ok hnstory, { l2 with story_writer := l2.story_writer + 1 })

/-- One iteration of the loop body in
`HnStoryList::start_update_thread_with_callback`: call
`update_story_details`, then build the story that is sent over the
channel — its `id` reads `story_writer` AFTER the call, its title comes
from `newstory.unwrap()` and its url is the constant
`"http://updated-url.com"`.  The `.unwrap()` on an `Err` result panics the
updater thread; that panic is modelled as `none`. -/
def updaterStep (l : HnStoryList) (fetch : Nat → Except String Story) :
    Option (HnStory × HnStoryList) :=
  let r := l.update_story_details fetch
  match r.1 with
  | .error _ => none
  | .ok newstory =>
      some ({ id := r.2.story_writer, author := "Unknown", title := newstory.title,
              url := some "http://updated-url.com", hntype := .story }, r.2)

/-- `n` iterations of the updater loop, collecting the stories sent over
the channel.  A `none` step (the modelled `.unwrap()` panic) kills the
thread: nothing further is sent. -/
def updaterRun (fetch : Nat → Except String Story) :
    Nat → HnStoryList → List HnStory × HnStoryList
  | 0, l => ([], l)
  | n + 1, l =>
      match updaterStep l fetch with
      | none => ([], l)
      | some (s, l2) =>
          let rest := updaterRun fetch n l2
          (s :: rest.1, rest.2)

/-- The spec's state invariants for `HnStoryList`
(cursor ≤ limit ≤ identifiers, materialized length = cursor, positions in
order). -/
def ListInv (l : HnStoryList) : Prop :=
  l.story_writer ≤ l.story_maxlen ∧
  l.story_maxlen ≤ l.storyidlist.length ∧
  l.storylist.length = l.story_writer ∧
  ∀ (i : Nat) (s : HnStory), l.storylist[i]? = some s → s.id = i

/-- States reachable from construction by any sequence of
`update_story_details` calls (failed calls return the state unchanged, so
the single step constructor covers both outcomes). -/
inductive Reachable : HnStoryList → Prop where
  | con : ∀ top fetch, Reachable (HnStoryList.new top fetch)
  | step : ∀ l fetch, Reachable l →
      Reachable (l.update_story_details fetch).2

deriving instance DecidableEq for Except

/-- Detail-fetch oracle that always fails (a network-down scenario). -/
def fetchFail : Nat → Except String Story := fun _ => .error "network down"

/-- Detail-fetch oracle that always succeeds, with author `"alice"`,
title `"T"` and url `"U"`. -/
def fetchTU : Nat → Except String Story := fun sid =>
  .ok { id := sid, by_ := some "alice", title := some "T", url := some "U" }

/-- The item `update_story_details` builds at cursor `w` from a fetched
`st` (abbreviates the record literal in the source translation). -/
def builtStory (w : Nat) (st : Story) : HnStory :=
  { id := w, author := "Unknown", title := st.title.getD "Untitled",
    url := some (st.url.getD "http://example.com"), hntype := .story }

/-- The eager loop pushes one story per identifier. -/
theorem buildDets_length (fetch : Nat → Except String Story) :
    ∀ (i : Nat) (l : List Nat), (buildDets fetch i l).length = l.length
  | _, [] => rfl
  | i, _ :: rest => by
      simp [buildDets, buildDets_length fetch (i + 1) rest]

/-- The eager loop numbers its pushes consecutively from the start index. -/
theorem buildDets_id (fetch : Nat → Except String Story) :
    ∀ (l : List Nat) (i j : Nat) (s : HnStory),
      (buildDets fetch i l)[j]? = some s → s.id = i + j := by
  intro l
  induction l with
  | nil => intro i j s h; simp [buildDets] at h
  | cons sid rest ih =>
      intro i j s h
      cases j with
      | zero =>
          simp [buildDets] at h
          rw [← h]
          simp [mkStoryDet]
      | succ j2 =>
          have hrec := ih (i + 1) j2 s (by simpa [buildDets] using h)
          omega

/-- `insertIdx` in range is a take/insert/drop splice. -/
theorem insertIdx_eq_take_cons_drop {α : Type} (a : α) :
    ∀ (i : Nat) (l : List α), i ≤ l.length →
      l.insertIdx i a = l.take i ++ a :: l.drop i
  | 0, _, _ => rfl
  | i + 1, [], h => absurd h (by simp)
  | i + 1, x :: xs, h => by
      simp [List.insertIdx_succ_cons,
        insertIdx_eq_take_cons_drop a i xs (by simpa using h)]

/-- `update_story_details` on an exhausted cursor: the `Exhausted` error,
state untouched. -/
theorem update_story_details_exhausted (l : HnStoryList)
    (fetch : Nat → Except String Story) (hge : l.story_writer ≥ l.story_maxlen) :
    l.update_story_details fetch = (.error "No more stories to process", l) := by
  unfold HnStoryList.update_story_details
  rw [if_pos hge]

/-- `update_story_details` when the detail fetch fails: the fetch error is
propagated, state untouched. -/
theorem update_story_details_fetch_error (l : HnStoryList)
    (fetch : Nat → Except String Story) (err : String)
    (hlt : l.story_writer < l.story_maxlen)
    (hfe : fetch (l.storyidlist.getD l.story_writer 0) = .error err) :
    l.update_story_details fetch =
      (.error ("Failed to fetch story details: " ++ err), l) := by
  unfold HnStoryList.update_story_details
  rw [if_neg (by omega)]
  simp only [hfe]

/-- `update_story_details` when the detail fetch succeeds and the insert
index is in range: the built item is returned, inserted at the cursor, and
the cursor advances. -/
theorem update_story_details_success (l : HnStoryList)
    (fetch : Nat → Except String Story) (st : Story)
    (hlt : l.story_writer < l.story_maxlen)
    (hle : l.story_writer ≤ l.storylist.length)
    (hst : fetch (l.storyidlist.getD l.story_writer 0) = .ok st) :
    l.update_story_details fetch =
      (.ok (builtStory l.story_writer st),
       { storyidlist := l.storyidlist,
         storylist := l.storylist.insertIdx l.story_writer
           (builtStory l.story_writer st),
         story_writer := l.story_writer + 1,
         story_maxlen := l.story_maxlen }) := by
  unfold HnStoryList.update_story_details HnStoryList.add_story_at_index
  rw [if_neg (by omega)]
  simp only [hst]
  rw [if_neg (by omega)]
  rfl

/-- The constructor establishes the invariants. -/
theorem listInv_new (top : Except String (List Nat))
    (fetch : Nat → Except String Story) : ListInv (HnStoryList.new top fetch) := by
  cases top with
  | error err =>
      refine ⟨Nat.le_refl 0, Nat.le_refl 0, rfl, ?_⟩
      intro i s h
      simp [HnStoryList.new] at h
  | ok ids =>
      refine ⟨?_, Nat.le_refl _, ?_, ?_⟩
      · simp only [HnStoryList.new]
        rw [List.length_take]
        omega
      · simp only [HnStoryList.new]
        exact buildDets_length fetch 0 (ids.take 11)
      · intro i s h
        simp only [HnStoryList.new] at h
        have := buildDets_id fetch (ids.take 11) 0 i s h
        omega

/-- `update_story_details` preserves the invariants. -/
theorem listInv_update (l : HnStoryList) (fetch : Nat → Except String Story)
    (hinv : ListInv l) : ListInv (l.update_story_details fetch).2 := by
  obtain ⟨h1, h2, h3, h4⟩ := hinv
  by_cases hw : l.story_writer ≥ l.story_maxlen
  · rw [update_story_details_exhausted l fetch hw]
    exact ⟨h1, h2, h3, h4⟩
  · have hlt : l.story_writer < l.story_maxlen := by omega
    rcases hfe : fetch (l.storyidlist.getD l.story_writer 0) with err | st
    · rw [update_story_details_fetch_error l fetch err hlt hfe]
      exact ⟨h1, h2, h3, h4⟩
    · rw [update_story_details_success l fetch st hlt (Nat.le_of_eq h3.symm) hfe]
      dsimp only
      have happ : l.storylist.insertIdx l.story_writer (builtStory l.story_writer st) =
          l.storylist ++ [builtStory l.story_writer st] := by
        rw [← h3]
        exact List.insertIdx_length_self l.storylist _
      refine ⟨show l.story_writer + 1 ≤ l.story_maxlen by omega, h2, ?_, ?_⟩
      · show (l.storylist.insertIdx l.story_writer (builtStory l.story_writer st)).length =
          l.story_writer + 1
        rw [happ, List.length_append, h3]
        rfl
      · intro i s h
        replace h : (l.storylist ++ [builtStory l.story_writer st])[i]? = some s := by
          rw [← happ]
          exact h
        rcases Nat.lt_or_ge i l.storylist.length with hi | hi
        · rw [List.getElem?_append_left hi] at h
          exact h4 i s h
        · rcases Nat.lt_or_ge i (l.storylist.length + 1) with hi2 | hi2
          · have hieq : i = l.storylist.length := by omega
            subst hieq
            rw [List.getElem?_concat_length] at h
            have hs : s = builtStory l.story_writer st :=
              ((Option.some.injEq _ _).mp h.symm)
            rw [hs, builtStory]
            exact h3.symm
          · exfalso
            have hnone : (l.storylist ++ [builtStory l.story_writer st])[i]? = none := by
              apply List.getElem?_eq_none
              simp only [List.length_append, List.length_cons, List.length_nil]
              omega
            rw [hnone] at h
            exact Option.noConfusion h

/-- C1: every state reachable from construction by any sequence of
successful or failed `update_story_details` calls satisfies the
invariants: `story_writer ≤ story_maxlen ≤ len storyidlist`,
`len storylist = story_writer`, and `storylist[i].id = i` for every valid
`i`. -/
theorem reachable_states_satisfy_invariants (l : HnStoryList)
    (h : Reachable l) : ListInv l := by
  induction h with
  | con top fetch => exact listInv_new top fetch
  | step l2 fetch _ ih => exact listInv_update l2 fetch ih

/-- C1 witness: the invariants at a concrete reachable state. -/
theorem reachable_states_satisfy_invariants_witness :
    ListInv (HnStoryList.new (.ok [5, 6]) fetchFail) :=
  reachable_states_satisfy_invariants _ (Reachable.con _ _)

/-- C2: `update_story_details` fails exactly when it does not append — on
a filled list it returns the exhausted error with the state unchanged; on
a detail-fetch failure it returns the fetch error with cursor and stories
unchanged; and a successful retry of the same identifier then commits the
item carrying that same position. -/
theorem update_story_details_failure_spec (l : HnStoryList)
    (fetch fetch2 : Nat → Except String Story) :
    (l.is_filled = true →
      l.update_story_details fetch = (.error "No more stories to process", l)) ∧
    (∀ err : String, l.story_writer < l.story_maxlen →
      fetch (l.storyidlist.getD l.story_writer 0) = .error err →
      l.update_story_details fetch =
        (.error ("Failed to fetch story details: " ++ err), l)) ∧
    (∀ st : Story, l.story_writer < l.story_maxlen →
      l.story_writer ≤ l.storylist.length →
      fetch2 (l.storyidlist.getD l.story_writer 0) = .ok st →
      (l.update_story_details fetch2).1 = .ok (builtStory l.story_writer st) ∧
      (builtStory l.story_writer st).id = l.story_writer) := by
  refine ⟨?_, ?_, ?_⟩
  · intro hf
    have heq : l.story_writer = l.story_maxlen := by
      simpa [HnStoryList.is_filled] using hf
    exact update_story_details_exhausted l fetch (Nat.le_of_eq heq.symm)
  · intro err hlt hfe
    exact update_story_details_fetch_error l fetch err hlt hfe
  · intro st hlt hle hst
    rw [update_story_details_success l fetch2 st hlt hle hst]
    exact ⟨rfl, rfl⟩

/-- C2 witness: the three failure/retry behaviors at concrete states. -/
theorem update_story_details_failure_spec_witness :
    ((⟨[7], [], 1, 1⟩ : HnStoryList).update_story_details fetchFail =
      (.error "No more stories to process", ⟨[7], [], 1, 1⟩)) ∧
    ((⟨[9], [], 0, 1⟩ : HnStoryList).update_story_details fetchFail =
      (.error ("Failed to fetch story details: " ++ "network down"),
       ⟨[9], [], 0, 1⟩)) ∧
    ((⟨[9], [], 0, 1⟩ : HnStoryList).update_story_details fetchTU).1 =
      .ok (builtStory 0
        { id := 9, by_ := some "alice", title := some "T", url := some "U" }) :=
  ⟨(update_story_details_failure_spec ⟨[7], [], 1, 1⟩ fetchFail fetchFail).1
      (by decide),
   (update_story_details_failure_spec ⟨[9], [], 0, 1⟩ fetchFail fetchFail).2.1
      "network down" (by decide) rfl,
   ((update_story_details_failure_spec ⟨[9], [], 0, 1⟩ fetchTU fetchTU).2.2
      _ (by decide) (by decide) rfl).1⟩

/-- C4 counterexample: constructed from the successfully fetched
identifier list `[5]`, the list has one materialized story and cursor 1 —
not the empty materialized sequence and zero cursor the claim states. -/
theorem construction_empty_counterexample :
    (HnStoryList.new (.ok [5]) fetchFail).storylist.length = 1 ∧
    (HnStoryList.new (.ok [5]) fetchFail).story_writer = 1 ∧
    ¬ ((HnStoryList.new (.ok [5]) fetchFail).storylist.length = 0 ∧
       (HnStoryList.new (.ok [5]) fetchFail).story_writer = 0) := by
  refine ⟨rfl, rfl, fun hc => absurd hc.1 (by decide)⟩

/-- C4 amended: construction from a successful identifier fetch of `N`
identifiers eagerly materializes the first `min 11 N` of them: right
after `new`, `len storylist = story_writer = min 11 N` (a detail fetch
was already attempted and committed for each of those positions). -/
theorem construction_eager_materialization (ids : List Nat)
    (fetch : Nat → Except String Story) :
    (HnStoryList.new (.ok ids) fetch).storylist.length = min 11 ids.length ∧
    (HnStoryList.new (.ok ids) fetch).story_writer = min 11 ids.length := by
  constructor
  · simp only [HnStoryList.new, buildDets_length, List.length_take]
  · simp only [HnStoryList.new, List.length_take]

/-- C5 counterexample: a successfully fetched identifier list of length 12
yields `story_maxlen = 12`, not the bounded prefix length 11 the claim
states. -/
theorem limit_truncation_counterexample :
    (HnStoryList.new (.ok [1, 2, 3, 4, 5, 6, 7, 8, 9, 10, 11, 12])
      fetchFail).story_maxlen = 12 ∧
    (HnStoryList.new (.ok [1, 2, 3, 4, 5, 6, 7, 8, 9, 10, 11, 12])
      fetchFail).story_maxlen ≠ 11 :=
  ⟨rfl, by decide⟩

/-- C5 amended: `story_maxlen` is the FULL length of the fetched
identifier list and the whole list is stored; only the constructor's
eager materialization is truncated to 11 entries, so the instance may go
on to fetch all `N` identifiers over its lifetime. -/
theorem limit_equals_full_length (ids : List Nat)
    (fetch : Nat → Except String Story) :
    (HnStoryList.new (.ok ids) fetch).story_maxlen = ids.length ∧
    (HnStoryList.new (.ok ids) fetch).storyidlist = ids :=
  ⟨rfl, rfl⟩

/-- C6: the updater loop body calls `.unwrap()` on the
`update_story_details` result, so a per-item fetch error panics the
updater thread (modelled as `none`) instead of logging and retrying;
nothing is sent on that iteration or ever after, and the cursor stays
put only because the thread is dead. -/
theorem updater_panics_on_fetch_error :
    updaterStep ⟨[42], [], 0, 1⟩ fetchFail = none ∧
    (updaterRun fetchFail 5 ⟨[42], [], 0, 1⟩).1 = [] ∧
    (updaterRun fetchFail 5 ⟨[42], [], 0, 1⟩).2 = ⟨[42], [], 0, 1⟩ :=
  ⟨rfl, rfl, rfl⟩

/-- C7: when the identifier-list fetch itself fails, construction
degrades to an empty inert list: every field is empty/zero, the list is
immediately filled, every later `update_story_details` fails identically
for ANY detail oracle without touching the state, and the updater loop
delivers no items. -/
theorem new_identifier_fetch_failure_inert (err : String)
    (fetch : Nat → Except String Story) :
    HnStoryList.new (.error err) fetch =
      { storyidlist := [], storylist := [], story_writer := 0,
        story_maxlen := 0 } ∧
    (HnStoryList.new (.error err) fetch).is_filled = true ∧
    (∀ f : Nat → Except String Story,
      (HnStoryList.new (.error err) fetch).update_story_details f =
        (.error "No more stories to process",
         HnStoryList.new (.error err) fetch)) ∧
    (∀ (f : Nat → Except String Story) (n : Nat),
      (updaterRun f n (HnStoryList.new (.error err) fetch)).1 = []) := by
  refine ⟨rfl, rfl, fun f => rfl, fun f n => ?_⟩
  cases n with
  | zero => rfl
  | succ m => rfl

/-- C8: `add_story_at_index` with `index > len storylist` always fails
with the index-out-of-range error and leaves the list unchanged (the
returned value carries no new state); with `index ≤ len storylist` it
succeeds, splicing the story in at `index` and growing the story list by
exactly one while every other field is untouched. -/
theorem add_story_at_index_spec (l : HnStoryList) (index : Nat)
    (story : HnStory) :
    (index > l.storylist.length →
      l.add_story_at_index index story = .error "Index out of bounds") ∧
    (index ≤ l.storylist.length →
      ∃ l2, l.add_story_at_index index story = .ok l2 ∧
        l2.storylist =
          l.storylist.take index ++ story :: l.storylist.drop index ∧
        l2.storylist.length = l.storylist.length + 1 ∧
        l2.storyidlist = l.storyidlist ∧
        l2.story_writer = l.story_writer ∧
        l2.story_maxlen = l.story_maxlen) := by
  constructor
  · intro hgt
    unfold HnStoryList.add_story_at_index
    rw [if_pos hgt]
  · intro hle
    refine ⟨{ l with storylist := l.storylist.insertIdx index story },
      ?_, ?_, ?_, rfl, rfl, rfl⟩
    · unfold HnStoryList.add_story_at_index
      rw [if_neg (by omega)]
    · exact insertIdx_eq_take_cons_drop story index l.storylist hle
    · exact List.length_insertIdx index l.storylist hle

/-- C8 witness: both branches at concrete inputs. -/
theorem add_story_at_index_spec_witness :
    ((⟨[], [], 0, 0⟩ : HnStoryList).add_story_at_index 1
        ⟨0, "a", "t", none, .story⟩ = .error "Index out of bounds") ∧
    (∃ l2, (⟨[], [], 0, 0⟩ : HnStoryList).add_story_at_index 0
        ⟨0, "a", "t", none, .story⟩ = .ok l2 ∧
      l2.storylist = [].take 0 ++ ⟨0, "a", "t", none, .story⟩ :: [].drop 0 ∧
      l2.storylist.length = ([] : List HnStory).length + 1 ∧
      l2.storyidlist = ([] : List Nat) ∧
      l2.story_writer = 0 ∧ l2.story_maxlen = 0) :=
  ⟨(add_story_at_index_spec ⟨[], [], 0, 0⟩ 1 ⟨0, "a", "t", none, .story⟩).1
      (by decide),
   (add_story_at_index_spec ⟨[], [], 0, 0⟩ 0 ⟨0, "a", "t", none, .story⟩).2
      (by decide)⟩

/-- C9 counterexample: with an upstream item whose `by` field is
`"alice"`, the committed item's author is the constant `"Unknown"`, not
the upstream author the claim states. -/
theorem materialized_author_counterexample :
    ((⟨[1], [], 0, 1⟩ : HnStoryList).update_story_details fetchTU).1 =
      .ok ⟨0, "Unknown", "T", some "U", .story⟩ ∧
    ((⟨[1], [], 0, 1⟩ : HnStoryList).update_story_details fetchTU).1 ≠
      .ok ⟨0, "alice", "T", some "U", .story⟩ :=
  ⟨rfl, by decide⟩

/-- C9 amended: every item committed by a successful
`update_story_details` carries the fetched title under the `"Untitled"`
fallback and the fetched url under the `"http://example.com"` fallback,
but its author is ALWAYS the constant `"Unknown"` — the upstream `by`
field is never consulted; its kind is always `story` and its position is
the cursor. -/
theorem materialized_item_fields (l : HnStoryList)
    (fetch : Nat → Except String Story) (st : Story)
    (hlt : l.story_writer < l.story_maxlen)
    (hle : l.story_writer ≤ l.storylist.length)
    (hst : fetch (l.storyidlist.getD l.story_writer 0) = .ok st) :
    ∃ item, (l.update_story_details fetch).1 = .ok item ∧
      item.title = st.title.getD "Untitled" ∧
      item.url = some (st.url.getD "http://example.com") ∧
      item.author = "Unknown" ∧
      item.hntype = .story ∧
      item.id = l.story_writer := by
  refine ⟨builtStory l.story_writer st, ?_, rfl, rfl, rfl, rfl, rfl⟩
  rw [update_story_details_success l fetch st hlt hle hst]

/-- C9 witness: the committed fields at a concrete state and oracle. -/
theorem materialized_item_fields_witness :
    ∃ item, ((⟨[3], [], 0, 1⟩ : HnStoryList).update_story_details
        fetchTU).1 = .ok item ∧
      item.title = (some "T").getD "Untitled" ∧
      item.url = some ((some "U").getD "http://example.com") ∧
      item.author = "Unknown" ∧
      item.hntype = .story ∧
      item.id = 0 :=
  materialized_item_fields ⟨[3], [], 0, 1⟩ fetchTU
    { id := 3, by_ := some "alice", title := some "T", url := some "U" }
    (by decide) (by decide) rfl

/-- C10: `from_string` maps each of the five known kind names to its
variant and, for every other string, hits the `todo!()` catch-all — a
panic, modelled as `none` — so that arm is unreachable only when the
input is one of the five names. -/
theorem from_string_total_on_known_names :
    HnStoryType.fromString "story" = some .story ∧
    HnStoryType.fromString "ask" = some .ask ∧
    HnStoryType.fromString "comment" = some .comment ∧
    HnStoryType.fromString "job" = some .job ∧
    HnStoryType.fromString "poll" = some .poll ∧
    ∀ s : String,
      s ∉ (["story", "ask", "comment", "job", "poll"] : List String) →
      HnStoryType.fromString s = none := by
  refine ⟨by decide, by decide, by decide, by decide, by decide, ?_⟩
  intro s hs
  simp only [List.mem_cons, List.not_mem_nil, or_false, not_or] at hs
  obtain ⟨h1, h2, h3, h4, h5⟩ := hs
  simp [HnStoryType.fromString, h1, h2, h3, h4, h5]

/-- C10 witness: an unknown name hits the modelled panic. -/
theorem from_string_total_on_known_names_witness :
    HnStoryType.fromString "weird" = none :=
  from_string_total_on_known_names.2.2.2.2.2 "weird" (by decide)

/-- C3 counterexample: one successful advance over the list `[42]` sends
one story whose `id` is 1 (the cursor value AFTER the advance, not the
item's position 0) and whose url is the constant
`"http://updated-url.com"`, not the materialized url `"U"`. -/
theorem updater_delivery_counterexample :
    (updaterRun fetchTU 1 ⟨[42], [], 0, 1⟩).1 =
      [⟨1, "Unknown", "T", some "http://updated-url.com", .story⟩] ∧
    (updaterRun fetchTU 1 ⟨[42], [], 0, 1⟩).1.map HnStory.id ≠ [0] ∧
    (updaterRun fetchTU 1 ⟨[42], [], 0, 1⟩).1.map HnStory.url ≠ [some "U"] :=
  ⟨rfl, by decide, by decide⟩

/-- A run of `n` successful advances, from any consistent state with
exactly `n` identifiers left: one story is sent per advance; the `i`-th
sent story carries `id = story_writer + i + 1`, the title fetched for the
identifier at index `story_writer + i`, and the constant updated url. -/
theorem updaterRun_success (fetch : Nat → Except String Story)
    (hfetch : ∀ sid : Nat, ∃ st : Story, fetch sid = .ok st) :
    ∀ (n : Nat) (l : HnStoryList),
      l.storylist.length = l.story_writer →
      l.story_writer + n = l.story_maxlen →
      l.story_maxlen ≤ l.storyidlist.length →
      (updaterRun fetch n l).1.length = n ∧
      ∀ (i : Nat) (s : HnStory), (updaterRun fetch n l).1[i]? = some s →
        s.id = l.story_writer + i + 1 ∧
        (∀ st : Story,
          fetch (l.storyidlist.getD (l.story_writer + i) 0) = .ok st →
          s.title = st.title.getD "Untitled") ∧
        s.url = some "http://updated-url.com" := by
  intro n
  induction n with
  | zero =>
      intro l hlen hcnt hidl
      refine ⟨rfl, ?_⟩
      intro i s h
      simp [updaterRun] at h
  | succ m ih =>
      intro l hlen hcnt hidl
      have hlt : l.story_writer < l.story_maxlen := by omega
      obtain ⟨st, hst⟩ := hfetch (l.storyidlist.getD l.story_writer 0)
      have hupd := update_story_details_success l fetch st hlt
        (Nat.le_of_eq hlen.symm) hst
      have hstep : updaterStep l fetch = some
          ({ id := l.story_writer + 1, author := "Unknown",
             title := st.title.getD "Untitled",
             url := some "http://updated-url.com", hntype := .story },
           { storyidlist := l.storyidlist,
             storylist := l.storylist.insertIdx l.story_writer
               (builtStory l.story_writer st),
             story_writer := l.story_writer + 1,
             story_maxlen := l.story_maxlen }) := by
        unfold updaterStep
        rw [hupd]
        rfl
      have hrec := ih
        { storyidlist := l.storyidlist,
          storylist := l.storylist.insertIdx l.story_writer
            (builtStory l.story_writer st),
          story_writer := l.story_writer + 1,
          story_maxlen := l.story_maxlen }
        (by
          show (l.storylist.insertIdx l.story_writer
            (builtStory l.story_writer st)).length = l.story_writer + 1
          rw [List.length_insertIdx l.story_writer l.storylist
            (Nat.le_of_eq hlen.symm), hlen])
        (by show l.story_writer + 1 + m = l.story_maxlen; omega)
        (by show l.story_maxlen ≤ l.storyidlist.length; exact hidl)
      have hrun : updaterRun fetch (m + 1) l =
          ({ id := l.story_writer + 1, author := "Unknown",
             title := st.title.getD "Untitled",
             url := some "http://updated-url.com", hntype := .story } ::
            (updaterRun fetch m
              { storyidlist := l.storyidlist,
                storylist := l.storylist.insertIdx l.story_writer
                  (builtStory l.story_writer st),
                story_writer := l.story_writer + 1,
                story_maxlen := l.story_maxlen }).1,
           (updaterRun fetch m
              { storyidlist := l.storyidlist,
                storylist := l.storylist.insertIdx l.story_writer
                  (builtStory l.story_writer st),
                story_writer := l.story_writer + 1,
                story_maxlen := l.story_maxlen }).2) := by
        simp only [updaterRun, hstep]
      refine ⟨?_, ?_⟩
      · rw [hrun]
        simp only [List.length_cons, hrec.1]
      · intro i s h
        rw [hrun] at h
        cases i with
        | zero =>
            simp only [List.getElem?_cons_zero, Option.some.injEq] at h
            refine ⟨by rw [← h], ?_, by rw [← h]⟩
            intro st2 hst2
            rw [Nat.add_zero] at hst2
            rw [hst] at hst2
            have hstq : st = st2 := Except.ok.inj hst2
            rw [← h, ← hstq]
        | succ j =>
            simp only [List.getElem?_cons_succ] at h
            have h3 := hrec.2 j s h
            have h31 : s.id = l.story_writer + 1 + j + 1 := h3.1
            refine ⟨by omega, ?_, h3.2.2⟩
            intro st2 hst2
            have harith : l.story_writer + 1 + j = l.story_writer + (j + 1) := by
              omega
            have hx : fetch (l.storyidlist.getD (l.story_writer + 1 + j) 0) =
                .ok st2 := by
              rw [harith]
              exact hst2
            exact h3.2.1 st2 hx

/-- C3 amended: for a run of `N` successful advances over a fresh list with
`N` identifiers and limit `N`, the updater sends exactly `N` stories, in
strictly increasing id order matching identifier order — but the `i`-th
sent story carries `id = i + 1` (the cursor value AFTER the advance, off
by one from the item's position `i`), the title materialized for
`identifiers[i]`, and the constant url `"http://updated-url.com"` rather
than the materialized url. -/
theorem updater_delivery_order (ids : List Nat)
    (fetch : Nat → Except String Story)
    (hfetch : ∀ sid : Nat, ∃ st : Story, fetch sid = .ok st) :
    (updaterRun fetch ids.length ⟨ids, [], 0, ids.length⟩).1.length =
      ids.length ∧
    ∀ (i : Nat) (s : HnStory),
      (updaterRun fetch ids.length ⟨ids, [], 0, ids.length⟩).1[i]? = some s →
      s.id = i + 1 ∧
      (∀ st : Story, fetch (ids.getD i 0) = .ok st →
        s.title = st.title.getD "Untitled") ∧
      s.url = some "http://updated-url.com" := by
  have h := updaterRun_success fetch hfetch ids.length
    ⟨ids, [], 0, ids.length⟩ rfl (Nat.zero_add ids.length) (Nat.le_refl _)
  refine ⟨h.1, ?_⟩
  intro i s hs
  have h2 := h.2 i s hs
  refine ⟨?_, ?_, h2.2.2⟩
  · have : s.id = 0 + i + 1 := h2.1
    omega
  · intro st hst
    apply h2.2.1 st
    show fetch (ids.getD (0 + i) 0) = .ok st
    rw [Nat.zero_add]
    exact hst

/-- C3 witness: the amended delivery facts at a concrete two-element run. -/
theorem updater_delivery_order_witness :
    (updaterRun fetchTU 2 ⟨[42, 43], [], 0, 2⟩).1.length = 2 :=
  (updater_delivery_order [42, 43] fetchTU
    (fun sid => ⟨Story.mk sid (some "alice") (some "T") (some "U")
      none none none, rfl⟩)).1
